import Mathlib

/-!
Shallow embedding of the UPELIB TELNET terminal server
(src/TerminalLine.cpp, src/TerminalLine.hpp, src/TerminalServer.cpp,
src/TerminalServer.hpp), together with theorems settling the claims about
its specification.

The per-line TELNET protocol engine (class CTerminalLine) is modelled as a
pure state machine over `LineState`; member-function side effects (bytes
delivered to the host RECEIVE_CALLBACK and raw bytes written to the socket
by SendCommand/SocketWrite) become explicit output lists.  The server
(class CTerminalServer) is modelled as explicit state passing over
`ServerState`; callback invocations, socket closes and table removals
become an explicit event trace.  Failed C assert() calls are modelled as
`Option.none` results.
-/

/-! ## Byte constants (TerminalLine.hpp enum, UPELIB.hpp) -/

def IAC : Nat := 255
def IAC_WILL : Nat := 251
def IAC_WONT : Nat := 252
def IAC_DO : Nat := 253
def IAC_DONT : Nat := 254
def OPT_ECHO : Nat := 1
def OPT_SGA : Nat := 3
def CHNUL : Nat := 0
def CHLFD : Nat := 10
def CHCRT : Nat := 13

/-! ## Engine states (TerminalLine.hpp) -/

inductive TELNET_STATE where
  | STA_NORMAL
  | STA_IAC_RCVD
  | STA_WILL_RCVD
  | STA_WONT_RCVD
  | STA_DO_RCVD
  | STA_DONT_RCVD
  | STA_CR_LAST
  deriving DecidableEq

inductive OPTION_STATE where
  | OPT_DISABLED
  | OPT_ENABLED
  | OPT_WAITING
  deriving DecidableEq

open TELNET_STATE OPTION_STATE

/-- The mutable per-line state of CTerminalLine (protocol-relevant
members m_staCurrent, m_optLocalEcho, m_optLocalSGA, m_optRemoteSGA). -/
structure LineState where
  staCurrent : TELNET_STATE
  optLocalEcho : OPTION_STATE
  optLocalSGA : OPTION_STATE
  optRemoteSGA : OPTION_STATE
  deriving DecidableEq

/-- Initial member values set by the CTerminalLine constructor. -/
def initLineState : LineState :=
  ⟨STA_NORMAL, OPT_ENABLED, OPT_DISABLED, OPT_DISABLED⟩

/-- SendCommand builds the 3-byte escape sequence {IAC, nCommand, nOption}
and writes it to the socket; we return the raw bytes written. -/
def SendCommand (nCommand nOption : Nat) : List Nat :=
  [IAC, nCommand, nOption]

def SendWill (nOption : Nat) : List Nat := SendCommand IAC_WILL nOption

def SendWont (nOption : Nat) : List Nat := SendCommand IAC_WONT nOption

def SendDo (nOption : Nat) : List Nat := SendCommand IAC_DO nOption

def SendDont (nOption : Nat) : List Nat := SendCommand IAC_DONT nOption

/-- CTerminalLine::HandleWill: new option state plus bytes sent. -/
def HandleWill (nOption : Nat) (s : LineState) : LineState × List Nat :=
  if nOption = OPT_SGA then
    ({ s with optRemoteSGA := OPT_ENABLED },
     if s.optRemoteSGA ≠ OPT_WAITING then SendDo OPT_SGA else [])
  else
    (s, SendDont nOption)

/-- CTerminalLine::HandleWont: only logs, no state change and no send. -/
def HandleWont (_nOption : Nat) (s : LineState) : LineState × List Nat :=
  (s, [])

/-- CTerminalLine::HandleDo: new option state plus bytes sent. -/
def HandleDo (nOption : Nat) (s : LineState) : LineState × List Nat :=
  if nOption = OPT_SGA then
    ({ s with optLocalSGA := OPT_ENABLED },
     if s.optLocalSGA ≠ OPT_WAITING then SendWill OPT_SGA else [])
  else if nOption = OPT_ECHO then
    match s.optLocalEcho with
    | OPT_WAITING => ({ s with optLocalEcho := OPT_DISABLED }, [])
    | OPT_ENABLED => (s, SendWont OPT_ECHO)
    | OPT_DISABLED => (s, SendWill OPT_ECHO)
  else
    (s, SendWont nOption)

/-- CTerminalLine::HandleDont: new option state plus bytes sent. -/
def HandleDont (nOption : Nat) (s : LineState) : LineState × List Nat :=
  if nOption = OPT_SGA then
    (s, [])
  else if nOption = OPT_ECHO then
    ({ s with optLocalEcho := OPT_ENABLED }, [])
  else
    (s, [])

/-- Result of one step of the state machine engine: the TELNET_STATE
returned by NextState, the line state after any handler side effects,
bytes delivered to the host receive callback, and bytes sent. -/
structure StepResult where
  nextSta : TELNET_STATE
  line : LineState
  delivered : List Nat
  sent : List Nat
  deriving DecidableEq

/-- CTerminalLine::NextState: the TELNET state machine engine. -/
def NextState (ch : Nat) (s : LineState) : StepResult :=
  match s.staCurrent with
  | STA_NORMAL =>
      ⟨if ch = IAC then STA_IAC_RCVD else STA_NORMAL, s, [], []⟩
  | STA_CR_LAST =>
      ⟨STA_NORMAL, s, if ch ≠ CHNUL ∧ ch ≠ CHLFD then [ch] else [], []⟩
  | STA_IAC_RCVD =>
      if ch = IAC_WILL then ⟨STA_WILL_RCVD, s, [], []⟩
      else if ch = IAC_WONT then ⟨STA_WONT_RCVD, s, [], []⟩
      else if ch = IAC_DO then ⟨STA_DO_RCVD, s, [], []⟩
      else if ch = IAC_DONT then ⟨STA_DONT_RCVD, s, [], []⟩
      else if ch = IAC then ⟨STA_NORMAL, s, [ch], []⟩
      else ⟨STA_NORMAL, s, [], []⟩
  | STA_WILL_RCVD =>
      let r := HandleWill ch s
      ⟨STA_NORMAL, r.1, [], r.2⟩
  | STA_WONT_RCVD =>
      let r := HandleWont ch s
      ⟨STA_NORMAL, r.1, [], r.2⟩
  | STA_DO_RCVD =>
      let r := HandleDo ch s
      ⟨STA_NORMAL, r.1, [], r.2⟩
  | STA_DONT_RCVD =>
      let r := HandleDont ch s
      ⟨STA_NORMAL, r.1, [], r.2⟩

/-- Result of feeding bytes to the engine: final line state, bytes
delivered to the receive callback (in order), bytes sent (in order). -/
structure FeedResult where
  line : LineState
  delivered : List Nat
  sent : List Nat
  deriving DecidableEq

/-- CTerminalLine::Receive: one input byte from the remote NVT. -/
def Receive (ch : Nat) (s : LineState) : FeedResult :=
  if s.staCurrent = STA_NORMAL ∧ ch ≠ IAC then
    { line := if ch = CHCRT then { s with staCurrent := STA_CR_LAST } else s,
      delivered := if ch ≠ CHNUL then [ch] else [],
      sent := [] }
  else
    let r := NextState ch s
    { line := { r.line with staCurrent := r.nextSta },
      delivered := r.delivered,
      sent := r.sent }

/-- The per-byte loop of CTerminalServer::SocketRead: feed each byte
individually, in order, accumulating deliveries and sends. -/
def ReceiveAll (bytes : List Nat) (s : LineState) : FeedResult :=
  match bytes with
  | [] => ⟨s, [], []⟩
  | b :: rest =>
      let r1 := Receive b s
      let r2 := ReceiveAll rest r1.line
      ⟨r2.line, r1.delivered ++ r2.delivered, r1.sent ++ r2.sent⟩

/-- CTerminalLine::SetLocalEcho: new state plus bytes sent. -/
def SetLocalEcho (fEcho : Bool) (s : LineState) : LineState × List Nat :=
  if s.optLocalEcho = OPT_WAITING then (s, [])
  else if fEcho then
    if s.optLocalEcho = OPT_ENABLED then (s, [])
    else ({ s with optLocalEcho := OPT_WAITING }, SendWont OPT_ECHO)
  else
    if s.optLocalEcho = OPT_DISABLED then (s, [])
    else ({ s with optLocalEcho := OPT_WAITING }, SendWill OPT_ECHO)

/-- CTerminalLine::SuppressGoAhead: new state plus bytes sent. -/
def SuppressGoAhead (s : LineState) : LineState × List Nat :=
  let p1 : LineState × List Nat :=
    if s.optLocalSGA ≠ OPT_ENABLED then
      ({ s with optLocalSGA := OPT_WAITING }, SendWill OPT_SGA)
    else (s, [])
  let p2 : LineState × List Nat :=
    if p1.1.optRemoteSGA ≠ OPT_ENABLED then
      ({ p1.1 with optRemoteSGA := OPT_WAITING }, SendDo OPT_SGA)
    else (p1.1, [])
  (p2.1, p1.2 ++ p2.2)

/-! ## Server model (TerminalServer.cpp / TerminalServer.hpp) -/

/-- One connected line: the CTerminalLine object as stored in m_apLines
(members m_nLine, m_ClientSocket, and the protocol state). -/
structure Conn where
  nLine : Nat
  socket : Nat
  lineState : LineState
  deriving DecidableEq

/-- Externally visible events of CTerminalServer operations: callback
invocations, socket closes and table removals, in program order. -/
inductive SrvEvent where
  | connCallback (nLine : Nat)
  | discCallback (nLine : Nat)
  | sktClosed (skt : Nat)
  | entryRemoved (nLine : Nat)
  deriving DecidableEq

/-- The CTerminalServer state: m_nMaxLines, the m_apLines vector of
CTerminalLine pointers (None = NULL), the m_mapSocket hash from socket to
line number (as an association list), and whether the optional connect
and disconnect callback pointers are non-NULL. -/
structure ServerState where
  nMaxLines : Nat
  apLines : List (Option Conn)
  mapSocket : List (Nat × Nat)
  hasConnectCallback : Bool
  hasDisconnectCallback : Bool
  deriving DecidableEq

/-- Key lookup in m_mapSocket (std::unordered_map::find). -/
def lookupSkt (skt : Nat) : List (Nat × Nat) → Option Nat
  | [] => none
  | (k, v) :: rest => if k = skt then some v else lookupSkt skt rest

/-- Key removal from m_mapSocket (std::unordered_map::erase). -/
def eraseSkt (skt : Nat) : List (Nat × Nat) → List (Nat × Nat)
  | [] => []
  | (k, v) :: rest =>
      if k = skt then eraseSkt skt rest else (k, v) :: eraseSkt skt rest

/-- CTerminalServer::SocketToLine is `return m_mapSocket[skt]`:
std::unordered_map::operator[] value-initializes (to 0) and inserts an
entry for a missing key.  Returns the line number and the updated map. -/
def SocketToLine (skt : Nat) (m : List (Nat × Nat)) : Nat × List (Nat × Nat) :=
  match lookupSkt skt m with
  | some n => (n, m)
  | none => (0, m ++ [(skt, 0)])

/-- CTerminalServer::Line(n), i.e. m_apLines.at(n): None when the slot
holds NULL or n is out of range (at() would throw). -/
def LineAt (n : Nat) (s : ServerState) : Option Conn :=
  (s.apLines.get? n).bind id

/-- The free-line search loop of CTerminalServer::SocketAccept: the first
index holding NULL, or the length of the array when every slot is
occupied. -/
def findFreeLine : List (Option Conn) → Nat
  | [] => 0
  | none :: _ => 0
  | some _ :: rest => findFreeLine rest + 1

/-- CTerminalServer::Disconnect.  `assert(pLine != NULL)` fails (None
result) when the line is not connected.  Otherwise: disconnect callback
(if installed) while the entry still exists, delete the line object,
close the socket, clear the slot and erase the reverse-map entry. -/
def Disconnect (nLine : Nat) (s : ServerState) :
    Option (ServerState × List SrvEvent) :=
  match LineAt nLine s with
  | none => none
  | some conn =>
      some ({ s with
                apLines := s.apLines.set nLine none,
                mapSocket := eraseSkt conn.socket s.mapSocket },
            (if s.hasDisconnectCallback then [SrvEvent.discCallback nLine]
             else []) ++
              [SrvEvent.sktClosed conn.socket, SrvEvent.entryRemoved nLine])

/-- Result of CTerminalServer::SocketAccept: the new server state, the
event trace, and the line number assigned (None when the connection was
rejected or the accept failed). -/
structure AcceptResult where
  state : ServerState
  trace : List SrvEvent
  acceptedLine : Option Nat
  deriving DecidableEq

/-- CTerminalServer::SocketAccept.  External call results are inputs:
`acceptRes` is the socket returned by accept() (None = INVALID_SOCKET),
`selectOk` the success of WSAAsyncSelect on the client socket, and
`cbAccepts` the verdict of the connect callback (consulted only when the
callback pointer is non-NULL). -/
def SocketAccept (acceptRes : Option Nat) (selectOk : Bool)
    (cbAccepts : Bool) (s : ServerState) : AcceptResult :=
  match acceptRes with
  | none => ⟨s, [], none⟩
  | some skt =>
      if selectOk = false then ⟨s, [SrvEvent.sktClosed skt], none⟩
      else
        let nLine := findFreeLine s.apLines
        if s.nMaxLines ≤ nLine then ⟨s, [SrvEvent.sktClosed skt], none⟩
        else
          let conn : Conn := ⟨nLine, skt, initLineState⟩
          let s1 : ServerState :=
            { s with apLines := s.apLines.set nLine (some conn) }
          if s.hasConnectCallback ∧ cbAccepts = false then
            ⟨{ s1 with apLines := s1.apLines.set nLine none },
             [SrvEvent.connCallback nLine, SrvEvent.sktClosed skt], none⟩
          else
            ⟨{ s1 with mapSocket := s1.mapSocket ++ [(skt, nLine)] },
             if s.hasConnectCallback then [SrvEvent.connCallback nLine]
             else [],
             some nLine⟩

/-- Result of CTerminalServer::SocketRead: new state, bytes delivered to
the receive callback, bytes sent back on the socket, event trace. -/
structure ReadResult where
  state : ServerState
  delivered : List Nat
  sent : List Nat
  trace : List SrvEvent
  deriving DecidableEq

/-- CTerminalServer::SocketRead.  The recv() outcome is an input:
None = SOCKET_ERROR, some [] = zero-length read (remote close),
some bytes = the bytes read.  `assert(pLine != NULL)` failing is a None
result.  On SOCKET_ERROR the code only logs; on a zero-length read it
calls Disconnect; otherwise each byte is fed to Receive in order. -/
def SocketRead (skt : Nat) (rcv : Option (List Nat)) (s : ServerState) :
    Option ReadResult :=
  let p := SocketToLine skt s.mapSocket
  let s0 : ServerState := { s with mapSocket := p.2 }
  match LineAt p.1 s0 with
  | none => none
  | some conn =>
      match rcv with
      | none => some ⟨s0, [], [], []⟩
      | some [] =>
          match Disconnect p.1 s0 with
          | none => none
          | some (s1, tr) => some ⟨s1, [], [], tr⟩
      | some bytes =>
          let r := ReceiveAll bytes conn.lineState
          some ⟨{ s0 with apLines :=
                    s0.apLines.set p.1 (some { conn with lineState := r.line }) },
                r.delivered, r.sent, []⟩

/-- DEFAULT_LINES from the TerminalServer.hpp constants enum. -/
def DEFAULT_LINES : Nat := 64

/-- The CTerminalServer constructor.  Its asserts become a None result:
`m_pServer == NULL` (the singleton slot is free, input `pServerNull`),
`nMaxLines > 0 && nMaxLines <= DEFAULT_LINES`, and `pReceive != NULL`.
On success every line slot starts NULL and the socket map is empty. -/
def mkServer (pServerNull : Bool) (hasReceive hasConnect hasDisconnect : Bool)
    (nMaxLines : Nat) : Option ServerState :=
  if pServerNull ∧ 0 < nMaxLines ∧ nMaxLines ≤ DEFAULT_LINES ∧ hasReceive then
    some ⟨nMaxLines, List.replicate nMaxLines none, [], hasConnect,
          hasDisconnect⟩
  else none

/-! ## Theorems: protocol engine claims -/

/-- Claim C1, counterexample: NUL (0) is neither IAC(255) nor CR(13),
yet feeding it to the engine in the Normal state delivers nothing to the
receive callback (Receive swallows NUL bytes). -/
theorem plain_byte_claim_cex :
    (0 : Nat) ≠ 255 ∧ (0 : Nat) ≠ 13 ∧
    (Receive 0 initLineState).delivered ≠ [0] ∧
    (Receive 0 initLineState).delivered = [] := by decide

/-- Claim C1 (amended: NUL(0) must also be excluded, since Receive always
swallows NUL in the Normal state): for every sequence of bytes none of
which is IAC(255), CR(13) or NUL(0), feeding them to the engine in the
Normal state delivers each byte unchanged, in input order, produces no
outbound command traffic, and leaves the engine state unchanged. -/
theorem plain_bytes_transparent (bytes : List Nat) (s : LineState)
    (hsta : s.staCurrent = STA_NORMAL)
    (hb : ∀ b ∈ bytes, b < 256 ∧ b ≠ 255 ∧ b ≠ 13 ∧ b ≠ 0) :
    ReceiveAll bytes s = ⟨s, bytes, []⟩ := by
  induction bytes generalizing s with
  | nil => rfl
  | cons b rest ih =>
      obtain ⟨-, h255, h13, h0⟩ := hb b (List.mem_cons_self b rest)
      have hstep : Receive b s = ⟨s, [b], []⟩ := by
        simp [Receive, hsta, h255, h13, h0, IAC, CHCRT, CHNUL]
      have hrest : ReceiveAll rest s = ⟨s, rest, []⟩ :=
        ih s hsta (fun b2 hb2 => hb b2 (List.mem_cons_of_mem _ hb2))
      simp [ReceiveAll, hstep, hrest]

/-- Witness for plain_bytes_transparent at a concrete input. -/
theorem plain_bytes_transparent_witness :
    ReceiveAll [65, 66, 67] initLineState = ⟨initLineState, [65, 66, 67], []⟩ :=
  plain_bytes_transparent [65, 66, 67] initLineState rfl (by decide)

/-- Claim C5: a CR (13) fed in the Normal state is delivered immediately
and moves the engine to the CR-seen state; a byte X fed right after is
swallowed when it is LF(10) or NUL(0) and delivered otherwise; in every
case the engine returns to the Normal state and sends nothing. -/
theorem cr_followed_byte (s : LineState) (X : Nat)
    (hsta : s.staCurrent = STA_NORMAL) :
    (Receive 13 s).delivered = [13] ∧ (Receive 13 s).sent = [] ∧
    (Receive 13 s).line.staCurrent = STA_CR_LAST ∧
    (Receive X (Receive 13 s).line).line.staCurrent = STA_NORMAL ∧
    (Receive X (Receive 13 s).line).sent = [] ∧
    ((X = 10 ∨ X = 0) → (Receive X (Receive 13 s).line).delivered = []) ∧
    (X ≠ 10 → X ≠ 0 → (Receive X (Receive 13 s).line).delivered = [X]) := by
  have h1 : Receive 13 s = ⟨{ s with staCurrent := STA_CR_LAST }, [13], []⟩ := by
    simp [Receive, hsta, IAC, CHCRT, CHNUL]
  rw [h1]
  refine ⟨rfl, rfl, rfl, ?_, ?_, ?_, ?_⟩
  · simp [Receive, NextState]
  · simp [Receive, NextState]
  · rintro (rfl | rfl) <;> simp [Receive, NextState, CHNUL, CHLFD]
  · intro h10 h0
    simp [Receive, NextState, CHNUL, CHLFD, h10, h0]

/-- Witness for cr_followed_byte at a concrete input. -/
theorem cr_followed_byte_witness :
    (Receive 65 (Receive 13 initLineState).line).delivered = [65] :=
  (cr_followed_byte initLineState 65 rfl).2.2.2.2.2.2 (by decide) (by decide)

/-- Claim C6: for every option byte opt other than ECHO(1) and SGA(3),
the input IAC WILL opt is answered by exactly IAC DONT opt and the input
IAC DO opt by exactly IAC WONT opt; nothing is delivered to the receive
callback and the engine returns to the Normal state. -/
theorem unknown_option_declined (s : LineState) (opt : Nat)
    (hopt : opt < 256) (h1 : opt ≠ 1) (h3 : opt ≠ 3)
    (hsta : s.staCurrent = STA_NORMAL) :
    (ReceiveAll [255, 251, opt] s).delivered = [] ∧
    (ReceiveAll [255, 251, opt] s).sent = [255, 254, opt] ∧
    (ReceiveAll [255, 251, opt] s).line.staCurrent = STA_NORMAL ∧
    (ReceiveAll [255, 253, opt] s).delivered = [] ∧
    (ReceiveAll [255, 253, opt] s).sent = [255, 252, opt] ∧
    (ReceiveAll [255, 253, opt] s).line.staCurrent = STA_NORMAL := by
  refine ⟨?_, ?_, ?_, ?_, ?_, ?_⟩ <;>
    simp [ReceiveAll, Receive, NextState, HandleWill, HandleDo, hsta, h1, h3,
          IAC, IAC_WILL, IAC_WONT, IAC_DO, IAC_DONT, OPT_SGA, OPT_ECHO,
          SendDont, SendWont, SendCommand, CHNUL, CHCRT, CHLFD]

/-- Witness for unknown_option_declined at a concrete input. -/
theorem unknown_option_declined_witness :
    (ReceiveAll [255, 251, 77] initLineState).sent = [255, 254, 77] :=
  (unknown_option_declined initLineState 77 (by decide) (by decide) (by decide)
    rfl).2.1

/-- Claim C2, counterexample: feeding IAC WILL ECHO (255,251,1) while
localEcho is Disabled does NOT produce an outbound IAC WILL ECHO and does
NOT put localEcho in the Negotiating state: HandleWill treats ECHO like
any unknown option and replies IAC DONT ECHO, leaving localEcho
Disabled. -/
theorem will_echo_input_cex :
    ¬((ReceiveAll [255, 251, 1]
          (⟨STA_NORMAL, OPT_DISABLED, OPT_DISABLED, OPT_DISABLED⟩ :
            LineState)).sent = [255, 251, 1] ∧
      (ReceiveAll [255, 251, 1]
          (⟨STA_NORMAL, OPT_DISABLED, OPT_DISABLED, OPT_DISABLED⟩ :
            LineState)).line.optLocalEcho = OPT_WAITING) ∧
    (ReceiveAll [255, 251, 1]
        (⟨STA_NORMAL, OPT_DISABLED, OPT_DISABLED, OPT_DISABLED⟩ :
          LineState)).sent = [255, 254, 1] := by decide

/-- Claim C2 (amended to the code's behavior): feeding the input
IAC WILL ECHO while localEcho is Disabled produces exactly one outbound
IAC DONT ECHO (255,254,1) and leaves localEcho Disabled; a subsequently
fed input IAC DO ECHO produces exactly one outbound IAC WILL ECHO
(255,251,1) and leaves localEcho Disabled (the outbound IAC WILL ECHO
offer is initiated by SetLocalEcho, not by an incoming WILL ECHO). -/
theorem will_echo_input_actual (s : LineState)
    (hsta : s.staCurrent = STA_NORMAL)
    (hecho : s.optLocalEcho = OPT_DISABLED) :
    (ReceiveAll [255, 251, 1] s).sent = [255, 254, 1] ∧
    (ReceiveAll [255, 251, 1] s).delivered = [] ∧
    (ReceiveAll [255, 251, 1] s).line.optLocalEcho = OPT_DISABLED ∧
    (ReceiveAll [255, 251, 1] s).line.staCurrent = STA_NORMAL ∧
    (ReceiveAll [255, 253, 1] (ReceiveAll [255, 251, 1] s).line).sent =
      [255, 251, 1] ∧
    (ReceiveAll [255, 253, 1] (ReceiveAll [255, 251, 1] s).line).delivered =
      [] ∧
    (ReceiveAll [255, 253, 1]
        (ReceiveAll [255, 251, 1] s).line).line.optLocalEcho =
      OPT_DISABLED := by
  refine ⟨?_, ?_, ?_, ?_, ?_, ?_, ?_⟩ <;>
    simp [ReceiveAll, Receive, NextState, HandleWill, HandleDo, hsta, hecho,
          IAC, IAC_WILL, IAC_WONT, IAC_DO, IAC_DONT, OPT_SGA, OPT_ECHO,
          SendDont, SendWill, SendCommand, CHNUL, CHCRT, CHLFD]

/-- Witness for will_echo_input_actual at a concrete input. -/
theorem will_echo_input_actual_witness :
    (ReceiveAll [255, 253, 1]
        (ReceiveAll [255, 251, 1]
          (⟨STA_NORMAL, OPT_DISABLED, OPT_DISABLED, OPT_DISABLED⟩ :
            LineState)).line).sent = [255, 251, 1] :=
  (will_echo_input_actual
    (⟨STA_NORMAL, OPT_DISABLED, OPT_DISABLED, OPT_DISABLED⟩ : LineState)
    rfl rfl).2.2.2.2.1

/-- Claim C8, counterexample: with localSGA and remoteSGA both in the
Negotiating (Waiting) state, SuppressGoAhead is not idempotent: it
re-sends IAC WILL SGA and IAC DO SGA instead of sending nothing. -/
theorem sga_renegotiate_cex :
    ¬((SuppressGoAhead
        (⟨STA_NORMAL, OPT_ENABLED, OPT_WAITING, OPT_WAITING⟩ :
          LineState)).2 = []) ∧
    (SuppressGoAhead
        (⟨STA_NORMAL, OPT_ENABLED, OPT_WAITING, OPT_WAITING⟩ :
          LineState)).2 = [255, 251, 3, 255, 253, 3] := by decide

/-- Claim C8 (amended): SetLocalEcho is idempotent when localEcho is
already in the desired or the Negotiating (Waiting) state - it sends
nothing and changes nothing - and otherwise sends exactly one
WILL ECHO / WONT ECHO and enters Waiting; SuppressGoAhead however skips
sending only when an SGA direction is already Enabled: it sends (and
re-sends, even while Waiting) IAC WILL SGA and IAC DO SGA for every
direction not yet Enabled. -/
theorem enable_option_idempotence :
    (∀ (s : LineState) (f : Bool), s.optLocalEcho = OPT_WAITING →
        SetLocalEcho f s = (s, [])) ∧
    (∀ s : LineState, s.optLocalEcho = OPT_ENABLED →
        SetLocalEcho true s = (s, [])) ∧
    (∀ s : LineState, s.optLocalEcho = OPT_DISABLED →
        SetLocalEcho false s = (s, [])) ∧
    (∀ s : LineState, s.optLocalEcho = OPT_DISABLED →
        SetLocalEcho true s =
          ({ s with optLocalEcho := OPT_WAITING }, [255, 252, 1])) ∧
    (∀ s : LineState, s.optLocalEcho = OPT_ENABLED →
        SetLocalEcho false s =
          ({ s with optLocalEcho := OPT_WAITING }, [255, 251, 1])) ∧
    (∀ s : LineState, (SuppressGoAhead s).2 =
        (if s.optLocalSGA = OPT_ENABLED then [] else [255, 251, 3]) ++
        (if s.optRemoteSGA = OPT_ENABLED then [] else [255, 253, 3])) ∧
    (∀ s : LineState, s.optLocalSGA = OPT_WAITING →
        (SuppressGoAhead s).2 ≠ []) := by
  refine ⟨?_, ?_, ?_, ?_, ?_, ?_, ?_⟩
  · intro s f h
    simp [SetLocalEcho, h]
  · intro s h
    simp [SetLocalEcho, h]
  · intro s h
    simp [SetLocalEcho, h]
  · intro s h
    simp [SetLocalEcho, h, SendWont, SendCommand, IAC, IAC_WONT, OPT_ECHO]
  · intro s h
    simp [SetLocalEcho, h, SendWill, SendCommand, IAC, IAC_WILL, OPT_ECHO]
  · intro s
    by_cases h1 : s.optLocalSGA = OPT_ENABLED <;>
      by_cases h2 : s.optRemoteSGA = OPT_ENABLED <;>
        simp [SuppressGoAhead, h1, h2, SendWill, SendDo, SendCommand,
              IAC, IAC_WILL, IAC_DO, OPT_SGA]
  · intro s h
    by_cases h2 : s.optRemoteSGA = OPT_ENABLED <;>
      simp [SuppressGoAhead, h, h2, SendWill, SendDo, SendCommand,
            IAC, IAC_WILL, IAC_DO, OPT_SGA]

/-- Witness for enable_option_idempotence at a concrete input. -/
theorem enable_option_idempotence_witness :
    SetLocalEcho true
        (⟨STA_NORMAL, OPT_WAITING, OPT_DISABLED, OPT_DISABLED⟩ : LineState) =
      ((⟨STA_NORMAL, OPT_WAITING, OPT_DISABLED, OPT_DISABLED⟩ : LineState),
       []) :=
  enable_option_idempotence.1
    (⟨STA_NORMAL, OPT_WAITING, OPT_DISABLED, OPT_DISABLED⟩ : LineState)
    true rfl

/-! ## List helper lemmas shared by the server theorems -/

theorem list_get_lt {α : Type} (l : List α) (i : Nat) (a : α)
    (h : l.get? i = some a) : i < l.length := by
  induction l generalizing i with
  | nil => simp at h
  | cons x rest ih =>
      cases i with
      | zero => simp
      | succ i2 =>
          simp only [List.get?] at h
          exact Nat.succ_lt_succ (ih i2 h)

theorem list_set_get_same {α : Type} (l : List α) (i : Nat) (a : α)
    (h : i < l.length) : (l.set i a).get? i = some a := by
  induction l generalizing i with
  | nil => simp at h
  | cons x rest ih =>
      cases i with
      | zero => rfl
      | succ i2 =>
          simp only [List.set, List.get?]
          exact ih i2 (by simpa using h)

theorem lookupSkt_append_self (q v0 : Nat) (m : List (Nat × Nat))
    (h : lookupSkt q m = none) : lookupSkt q (m ++ [(q, v0)]) = some v0 := by
  induction m with
  | nil => simp [lookupSkt]
  | cons p rest ih =>
      obtain ⟨k, v⟩ := p
      by_cases hk : k = q
      · simp [lookupSkt, hk] at h
      · simp only [List.cons_append]
        simp only [lookupSkt, hk, if_false] at h ⊢
        exact ih h

theorem lookupSkt_append_other (q k0 v0 : Nat) (m : List (Nat × Nat))
    (h : k0 ≠ q) : lookupSkt q (m ++ [(k0, v0)]) = lookupSkt q m := by
  induction m with
  | nil => simp [lookupSkt, h]
  | cons p rest ih =>
      obtain ⟨k, v⟩ := p
      by_cases hk : k = q <;> simp [lookupSkt, hk, ih]

/-! ## Theorems: server claims -/

/-- Claim C9: looking up a socket handle absent from the m_mapSocket
reverse map through SocketToLine returns line 0 and, as a side effect,
inserts an entry aliasing that socket to line 0; entries for other
sockets are unaffected. -/
theorem socket_to_line_unknown (skt : Nat) (m : List (Nat × Nat))
    (h : lookupSkt skt m = none) :
    (SocketToLine skt m).1 = 0 ∧
    lookupSkt skt (SocketToLine skt m).2 = some 0 ∧
    ∀ k, k ≠ skt → lookupSkt k (SocketToLine skt m).2 = lookupSkt k m := by
  refine ⟨?_, ?_, ?_⟩
  · simp [SocketToLine, h]
  · simp only [SocketToLine, h]
    exact lookupSkt_append_self skt 0 m h
  · intro k hk
    simp only [SocketToLine, h]
    exact lookupSkt_append_other k skt 0 m (fun he => hk he.symm)

/-- Witness for socket_to_line_unknown at a concrete input. -/
theorem socket_to_line_unknown_witness :
    (SocketToLine 7 [(5, 2)]).1 = 0 ∧
    lookupSkt 7 (SocketToLine 7 [(5, 2)]).2 = some 0 :=
  ⟨(socket_to_line_unknown 7 [(5, 2)] (by decide)).1,
   (socket_to_line_unknown 7 [(5, 2)] (by decide)).2.1⟩

/-- Claim C10: the CTerminalServer constructor succeeds only when
0 < nMaxLines <= DEFAULT_LINES (64) and the receive callback is non-NULL
(both enforced by assert), so the configured maximum number of lines
never exceeds 64; for every in-range nMaxLines, construction with a
receive callback succeeds and every line slot starts empty. -/
theorem server_ctor_asserts :
    (∀ (pN hr hc hd : Bool) (n : Nat) (srv : ServerState),
        mkServer pN hr hc hd n = some srv →
        0 < n ∧ n ≤ 64 ∧ hr = true ∧ srv.nMaxLines = n ∧
        srv.nMaxLines ≤ 64 ∧ srv.apLines.length = n ∧
        ∀ o ∈ srv.apLines, o = none) ∧
    (∀ (hc hd : Bool) (n : Nat), 0 < n → n ≤ 64 →
        mkServer true true hc hd n =
          some ⟨n, List.replicate n none, [], hc, hd⟩) := by
  constructor
  · intro pN hr hc hd n srv h
    unfold mkServer at h
    split at h
    · rename_i hcond
      obtain ⟨hp, hn0, hn64, hrcv⟩ := hcond
      cases h
      refine ⟨hn0, ?_, hrcv, rfl, ?_, by simp, ?_⟩
      · simpa [DEFAULT_LINES] using hn64
      · simpa [DEFAULT_LINES] using hn64
      · intro o ho
        exact List.eq_of_mem_replicate ho
    · exact Option.noConfusion h
  · intro hc hd n h0 h64
    simp [mkServer, DEFAULT_LINES, h0, h64]

/-- Witness for server_ctor_asserts at a concrete input. -/
theorem server_ctor_asserts_witness :
    mkServer true true false false 4 =
      some ⟨4, List.replicate 4 none, [], false, false⟩ :=
  server_ctor_asserts.2 false false 4 (by decide) (by decide)

/-- Claim C3, counterexample: on a server with line 0 connected (socket 5)
and a disconnect callback installed, the first Disconnect(0) succeeds, but
the second Disconnect(0) in succession hits `assert(pLine != NULL)` (None
result) - it is an assertion failure, not a no-op. -/
theorem disconnect_twice_cex :
    Disconnect 0
        (⟨1, [some ⟨0, 5, initLineState⟩], [(5, 0)], false, true⟩ :
          ServerState) =
      some ((⟨1, [none], [], false, true⟩ : ServerState),
            [SrvEvent.discCallback 0, SrvEvent.sktClosed 5,
             SrvEvent.entryRemoved 0]) ∧
    Disconnect 0 ((⟨1, [none], [], false, true⟩ : ServerState)) = none := by
  decide

/-- Claim C3 (amended): Disconnect(line) on a connected line invokes the
disconnect callback exactly once, while the table entry still exists and
before the entry is removed, then closes the socket once and removes the
entry; but Disconnect is not idempotent: a second call in succession
fails the `assert(pLine != NULL)` precondition instead of being a
no-op. -/
theorem disconnect_behavior (s : ServerState) (L : Nat) (conn : Conn)
    (h : LineAt L s = some conn) (hcb : s.hasDisconnectCallback = true) :
    ∃ s1 : ServerState,
      Disconnect L s =
        some (s1, [SrvEvent.discCallback L, SrvEvent.sktClosed conn.socket,
                   SrvEvent.entryRemoved L]) ∧
      LineAt L s1 = none ∧
      Disconnect L s1 = none := by
  have hlt : L < s.apLines.length := by
    unfold LineAt at h
    cases hg : s.apLines.get? L with
    | none => rw [hg] at h; simp at h
    | some o => exact list_get_lt s.apLines L o hg
  refine ⟨({ s with
              apLines := s.apLines.set L none,
              mapSocket := eraseSkt conn.socket s.mapSocket } : ServerState),
          ?_, ?_, ?_⟩
  · simp [Disconnect, h, hcb]
  · unfold LineAt
    rw [list_set_get_same s.apLines L none hlt]
    rfl
  · unfold Disconnect LineAt
    rw [list_set_get_same s.apLines L none hlt]
    rfl

/-- Witness for disconnect_behavior at a concrete input. -/
theorem disconnect_behavior_witness :
    ∃ s1 : ServerState,
      Disconnect 0
          (⟨2, [some ⟨0, 5, initLineState⟩, none], [(5, 0)], true, true⟩ :
            ServerState) =
        some (s1, [SrvEvent.discCallback 0, SrvEvent.sktClosed 5,
                   SrvEvent.entryRemoved 0]) ∧
      LineAt 0 s1 = none ∧
      Disconnect 0 s1 = none :=
  disconnect_behavior
    (⟨2, [some ⟨0, 5, initLineState⟩, none], [(5, 0)], true, true⟩ :
      ServerState)
    0 ⟨0, 5, initLineState⟩ rfl rfl

/-- Claim C4, counterexample: on a read-ready event where recv reports an
I/O error (SOCKET_ERROR), SocketRead only logs: the server state is
unchanged, the line stays connected, and Disconnect is NOT invoked (empty
event trace) - only a zero-length recv triggers Disconnect. -/
theorem recv_error_cex :
    SocketRead 5 none
        (⟨1, [some ⟨0, 5, initLineState⟩], [(5, 0)], false, true⟩ :
          ServerState) =
      some ⟨(⟨1, [some ⟨0, 5, initLineState⟩], [(5, 0)], false, true⟩ :
              ServerState), [], [], []⟩ := by
  decide

/-- Claim C4 (amended): on a read-ready event for a mapped, connected
line, a zero-length recv result invokes Disconnect(line); a recv I/O
error is only logged (state unchanged, no disconnect, no bytes fed); and
when recv returns bytes, each byte is fed individually, in order, to the
protocol engine (ReceiveAll) with no disconnect. -/
theorem socket_read_behavior (s : ServerState) (skt L : Nat) (conn : Conn)
    (hmap : lookupSkt skt s.mapSocket = some L)
    (hline : LineAt L s = some conn) :
    SocketRead skt none s = some ⟨s, [], [], []⟩ ∧
    (∀ (s1 : ServerState) (tr : List SrvEvent),
        Disconnect L s = some (s1, tr) →
        SocketRead skt (some []) s = some ⟨s1, [], [], tr⟩) ∧
    (∀ bytes : List Nat, bytes ≠ [] →
        SocketRead skt (some bytes) s =
          some ⟨({ s with
                    apLines := s.apLines.set L
                      (some ({ conn with
                                lineState :=
                                  (ReceiveAll bytes conn.lineState).line } :
                              Conn)) } : ServerState),
                (ReceiveAll bytes conn.lineState).delivered,
                (ReceiveAll bytes conn.lineState).sent, []⟩) := by
  have hS : SocketToLine skt s.mapSocket = (L, s.mapSocket) := by
    simp [SocketToLine, hmap]
  have hs0 : ({ s with mapSocket := s.mapSocket } : ServerState) = s := rfl
  refine ⟨?_, ?_, ?_⟩
  · simp [SocketRead, hS, hs0, hline]
  · intro s1 tr hdis
    simp [SocketRead, hS, hs0, hline, hdis]
  · intro bytes hbytes
    match bytes with
    | [] => exact absurd rfl hbytes
    | b :: rest => simp [SocketRead, hS, hs0, hline]

/-- Witness for socket_read_behavior at a concrete input. -/
theorem socket_read_behavior_witness :
    SocketRead 5 (some [])
        (⟨1, [some ⟨0, 5, initLineState⟩], [(5, 0)], false, true⟩ :
          ServerState) =
      some ⟨(⟨1, [none], [], false, true⟩ : ServerState), [], [],
            [SrvEvent.discCallback 0, SrvEvent.sktClosed 5,
             SrvEvent.entryRemoved 0]⟩ :=
  (socket_read_behavior
      (⟨1, [some ⟨0, 5, initLineState⟩], [(5, 0)], false, true⟩ :
        ServerState)
      5 0 ⟨0, 5, initLineState⟩ rfl rfl).2.1
    (⟨1, [none], [], false, true⟩ : ServerState)
    [SrvEvent.discCallback 0, SrvEvent.sktClosed 5, SrvEvent.entryRemoved 0]
    rfl

/-! ## findFreeLine lemmas (the free-line search loop of SocketAccept) -/

theorem findFreeLine_le_length (ap : List (Option Conn)) :
    findFreeLine ap ≤ ap.length := by
  induction ap with
  | nil => simp [findFreeLine]
  | cons o rest ih =>
      cases o with
      | none => simp [findFreeLine]
      | some c => simp only [findFreeLine, List.length_cons]; omega

theorem findFreeLine_get (ap : List (Option Conn))
    (h : findFreeLine ap < ap.length) :
    ap.get? (findFreeLine ap) = some none := by
  induction ap with
  | nil => simp at h
  | cons o rest ih =>
      cases o with
      | none => rfl
      | some c =>
          simp only [findFreeLine, List.length_cons] at h
          simp only [findFreeLine, List.get?]
          exact ih (by omega)

theorem findFreeLine_min (ap : List (Option Conn)) (j : Nat)
    (h : j < findFreeLine ap) : ap.get? j ≠ some none := by
  induction ap generalizing j with
  | nil => simp [findFreeLine] at h
  | cons o rest ih =>
      cases o with
      | none => simp [findFreeLine] at h
      | some c =>
          cases j with
          | zero => simp
          | succ j2 =>
              simp only [findFreeLine] at h
              simp only [List.get?]
              exact ih j2 (by omega)

theorem findFreeLine_full (ap : List (Option Conn))
    (h : ∀ o ∈ ap, o ≠ none) : findFreeLine ap = ap.length := by
  induction ap with
  | nil => rfl
  | cons o rest ih =>
      cases o with
      | none => exact absurd rfl (h none (by simp))
      | some c =>
          simp only [findFreeLine, List.length_cons]
          have := ih (fun o ho => h o (by simp [ho]))
          omega

theorem findFreeLine_eq (ap : List (Option Conn)) (L : Nat)
    (h1 : ap.get? L = some none)
    (h2 : ∀ j, j < L → ap.get? j ≠ some none) :
    findFreeLine ap = L := by
  induction ap generalizing L with
  | nil => simp at h1
  | cons o rest ih =>
      cases L with
      | zero =>
          simp only [List.get?] at h1
          cases o with
          | none => rfl
          | some c => simp at h1
      | succ L2 =>
          cases o with
          | none =>
              exact absurd rfl (h2 0 (Nat.succ_pos L2))
          | some c =>
              simp only [findFreeLine]
              have := ih L2 (by simpa using h1)
                (fun j hj => by
                  have := h2 (j + 1) (Nat.succ_lt_succ hj)
                  simpa using this)
              omega

/-- The acceptedLine result of SocketAccept, characterized in terms of
the free-line search. -/
theorem socketAccept_acceptedLine (s : ServerState) (skt : Nat) (cb : Bool) :
    (SocketAccept (some skt) true cb s).acceptedLine =
      if s.nMaxLines ≤ findFreeLine s.apLines then none
      else if s.hasConnectCallback ∧ cb = false then none
      else some (findFreeLine s.apLines) := by
  by_cases h1 : s.nMaxLines ≤ findFreeLine s.apLines <;>
    by_cases h2 : s.hasConnectCallback ∧ cb = false <;>
      simp [SocketAccept, h1, h2]

/-- Claim C7: the line chosen for a new connection is always the
lowest-numbered unoccupied slot, never an already-assigned line; when all
slots are occupied the connection is rejected (socket closed) with the
table untouched, before any line is assigned and before the connect
callback runs; and removing a line via Disconnect makes that line number
eligible to be returned by a subsequent allocation. -/
theorem line_allocation :
    (∀ (s : ServerState) (skt : Nat) (cb : Bool) (L : Nat),
        s.apLines.length = s.nMaxLines →
        (SocketAccept (some skt) true cb s).acceptedLine = some L →
        L < s.nMaxLines ∧ s.apLines.get? L = some none ∧
        ∀ j, j < L → s.apLines.get? j ≠ some none) ∧
    (∀ (s : ServerState) (skt : Nat) (cb : Bool),
        s.apLines.length = s.nMaxLines →
        (∀ o ∈ s.apLines, o ≠ none) →
        SocketAccept (some skt) true cb s =
          ⟨s, [SrvEvent.sktClosed skt], none⟩) ∧
    (∀ (s : ServerState) (L : Nat) (s1 : ServerState) (tr : List SrvEvent)
        (skt : Nat),
        s.apLines.length = s.nMaxLines →
        Disconnect L s = some (s1, tr) →
        s1.apLines.get? L = some none ∧
        ((∀ j, j < L → s1.apLines.get? j ≠ some none) →
          (SocketAccept (some skt) true true s1).acceptedLine = some L)) := by
  refine ⟨?_, ?_, ?_⟩
  · intro s skt cb L hlen h
    rw [socketAccept_acceptedLine] at h
    by_cases h1 : s.nMaxLines ≤ findFreeLine s.apLines
    · simp [h1] at h
    · by_cases h2 : s.hasConnectCallback ∧ cb = false
      · simp [h1, h2] at h
      · simp [h1, h2] at h
        subst h
        refine ⟨by omega, ?_, ?_⟩
        · exact findFreeLine_get s.apLines (by omega)
        · intro j hj
          exact findFreeLine_min s.apLines j hj
  · intro s skt cb hlen hfull
    have hff : findFreeLine s.apLines = s.nMaxLines := by
      rw [findFreeLine_full s.apLines hfull, hlen]
    simp [SocketAccept, hff]
  · intro s L s1 tr skt hlen hdis
    cases hL : LineAt L s with
    | none => simp [Disconnect, hL] at hdis
    | some conn =>
        have hlt : L < s.apLines.length := by
          unfold LineAt at hL
          cases hg : s.apLines.get? L with
          | none => rw [hg] at hL; simp at hL
          | some o => exact list_get_lt s.apLines L o hg
        simp only [Disconnect, hL, Option.some.injEq, Prod.mk.injEq] at hdis
        obtain ⟨hs1, -⟩ := hdis
        subst hs1
        have hget :
            (({ s with
                  apLines := s.apLines.set L none,
                  mapSocket := eraseSkt conn.socket s.mapSocket } :
                ServerState)).apLines.get? L = some none :=
          list_set_get_same s.apLines L none hlt
        refine ⟨hget, ?_⟩
        intro hmin
        rw [socketAccept_acceptedLine]
        have hff : findFreeLine
            (({ s with
                  apLines := s.apLines.set L none,
                  mapSocket := eraseSkt conn.socket s.mapSocket } :
                ServerState)).apLines = L :=
          findFreeLine_eq _ L hget hmin
        have hnle : ¬(({ s with
                  apLines := s.apLines.set L none,
                  mapSocket := eraseSkt conn.socket s.mapSocket } :
                ServerState)).nMaxLines ≤ findFreeLine
            (({ s with
                  apLines := s.apLines.set L none,
                  mapSocket := eraseSkt conn.socket s.mapSocket } :
                ServerState)).apLines := by
          rw [hff]
          show ¬s.nMaxLines ≤ L
          have : (s.apLines.set L none).length = s.apLines.length :=
            List.length_set s.apLines L none
          omega
        simp [hnle, hff]
        omega

/-- Witness for line_allocation at a concrete input: a full one-line
server rejects a new connection without running the connect callback. -/
theorem line_allocation_witness :
    SocketAccept (some 9) true true
        (⟨1, [some ⟨0, 5, initLineState⟩], [(5, 0)], false, false⟩ :
          ServerState) =
      ⟨(⟨1, [some ⟨0, 5, initLineState⟩], [(5, 0)], false, false⟩ :
          ServerState), [SrvEvent.sktClosed 9], none⟩ :=
  line_allocation.2.1
    (⟨1, [some ⟨0, 5, initLineState⟩], [(5, 0)], false, false⟩ : ServerState)
    9 true (by decide) (by decide)
